import Mathlib

/-!
Verification of `barter-data/src/exchange/bybit/book/l1.rs`: the Bybit
top-of-book (L1) message decoder, subscription-id resolver, and the
conversion into the canonical `MarketIter` event sequence.

Shallow embedding conventions:
* `DateTime<Utc>` (deserialized via `chrono::serde::ts_milliseconds`) is
  modelled as an `Int` of milliseconds since the epoch.
* Rust `f64` values produced by `str::parse::<f64>()` are modelled by `F64`:
  NaN, the two infinities, and finite values as exact rationals.  Rounding of
  a decimal literal to the nearest `f64` is not modelled; the claims under
  verification depend only on which strings parse and on exact decimal
  values.
* `Utc::now()` is passed in explicitly as the `now` argument.
* JSON payloads handed to serde are modelled by the `Json` inductive; the
  derived `Deserialize` impls are modelled by explicit decoder functions
  following serde semantics (required fields, unknown fields ignored,
  duplicate fields rejected, `[String; 2]` = exactly-two-element string
  array).
-/

set_option autoImplicit false
set_option maxRecDepth 8192

namespace BarterBybitL1

/-- A Rust `f64` value as far as `str::parse::<f64>()` can produce one:
NaN, ±infinity, or a finite value (kept exact as a rational). -/
inductive F64 where
  | nan : F64
  | posInf : F64
  | negInf : F64
  | finite : Rat → F64
deriving DecidableEq, Repr

/-- Fold a list of decimal digit characters into a natural number. -/
def digitsToNat (cs : List Char) : Nat :=
  cs.foldl (fun acc c => acc * 10 + (c.toNat - 48)) 0

/-- Parse an optionally signed, non-empty run of digits (the exponent part of
Rust's float grammar: `Exp ::= (e|E) Sign? Digit+`, sign and digits only —
the `e` has been consumed by the caller). -/
def parseSignedDigits (cs : List Char) : Option Int :=
  let (sign, body) :=
    match cs with
    | '+' :: r => ((1 : Int), r)
    | '-' :: r => ((-1 : Int), r)
    | _ => ((1 : Int), cs)
  if body ≠ [] ∧ body.all Char.isDigit then some (sign * (digitsToNat body : Int))
  else none

/-- Scale a rational by a power of ten (the effect of a decimal exponent). -/
def applyExp (q : Rat) (e : Int) : Rat :=
  if 0 ≤ e then q * (10 : Rat) ^ e.toNat else q / (10 : Rat) ^ (-e).toNat

/-- Parse the mantissa of Rust's float grammar:
`Digit+ '.'? Digit*` or `'.' Digit+`, returning the value and the unconsumed
rest (a possible exponent). -/
def parseMantissa (cs : List Char) : Option (Rat × List Char) :=
  let p := cs.span Char.isDigit
  match p.2 with
  | '.' :: r2 =>
      let p2 := r2.span Char.isDigit
      if p.1.isEmpty ∧ p2.1.isEmpty then none
      else
        some ((digitsToNat p.1 : Rat)
          + (digitsToNat p2.1 : Rat) / (10 : Rat) ^ p2.1.length, p2.2)
  | rest => if p.1.isEmpty then none else some ((digitsToNat p.1 : Rat), rest)

/-- Parse an unsigned number per Rust's `f64` grammar
(`Number ::= Mantissa Exp?`); input is already lower-cased. -/
def parseNumber (cs : List Char) : Option Rat := do
  let m ← parseMantissa cs
  match m.2 with
  | [] => pure m.1
  | 'e' :: r => do
      let e ← parseSignedDigits r
      pure (applyExp m.1 e)
  | _ => none

/-- Rust's `str::parse::<f64>()` (`f64::from_str`): optional sign, then
`inf`/`infinity`/`nan` (case-insensitive) or a decimal number with optional
exponent.  `none` models `Err(ParseFloatError)`. -/
def parseF64 (s : String) : Option F64 :=
  let cs := s.data.map Char.toLower
  let sp :=
    match cs with
    | '+' :: r => (false, r)
    | '-' :: r => (true, r)
    | _ => (false, cs)
  if sp.2 = "inf".data ∨ sp.2 = "infinity".data then
    some (if sp.1 then F64.negInf else F64.posInf)
  else if sp.2 = "nan".data then some F64.nan
  else (parseNumber sp.2).map (fun q => F64.finite (if sp.1 then -q else q))

/-- `BybitOrderBookL1Data` (`l1.rs`): the nested `data` payload.  A level
`[String; 2]` is modelled as a pair (price text, amount text). -/
structure BybitOrderBookL1Data where
  s : String
  b : List (String × String)
  a : List (String × String)
  u : Nat
  seq : Nat
deriving DecidableEq, Repr

/-- `BybitOrderBookL1` (`l1.rs`): the decoded wire message.  `ts` is the
`DateTime<Utc>` as epoch milliseconds. -/
structure BybitOrderBookL1 where
  topic : String
  ts : Int
  update_type : String
  data : BybitOrderBookL1Data
  cts : Nat
deriving DecidableEq, Repr

/-- `Level` (`subscription/book.rs`, shape fixed by the spec and the test in
`l1.rs`): a canonical price level. -/
structure Level where
  price : F64
  amount : F64
deriving DecidableEq, Repr

/-- `Level::new(price, amount)`. -/
def Level.new (price amount : F64) : Level := ⟨price, amount⟩

/-- `OrderBookL1` (`subscription/book.rs`): canonical top-of-book kind. -/
structure OrderBookL1 where
  last_update_time : Int
  best_bid : Level
  best_ask : Level
deriving DecidableEq, Repr

/-- `MarketEvent` (`event.rs`): the canonical event.  `exchange` holds the
result of `Exchange::from(exchange_id)`, modelled as an opaque string. -/
structure MarketEvent (InstrumentId : Type) (Kind : Type) where
  exchange_time : Int
  received_time : Int
  exchange : String
  instrument : InstrumentId
  kind : Kind
deriving DecidableEq, Repr

/-- `MarketIter<InstrumentId, Kind>`: a `Vec<Result<MarketEvent, DataError>>`;
the error payload is modelled as an opaque string. -/
def MarketIter (InstrumentId : Type) (Kind : Type) : Type :=
  List (Except String (MarketEvent InstrumentId Kind))

/-- Modelled from the spec: `BybitChannel::ORDER_BOOK_L1` (channel constant
`orderbook.1`; `bybit/channel.rs` is not part of the sources, the constant is
fixed by the routing-key example and the test assertion in `l1.rs`). -/
def bybitChannelOrderBookL1 : String := "orderbook.1"

/-- Modelled from the spec: `ExchangeSub::from((channel, market)).id()`
(`subscription.rs` is not part of the sources): concatenate the channel's
canonical name and the symbol with the fixed separator `|`. -/
def exchangeSubId (channel market : String) : String :=
  channel ++ "|" ++ market

/-- `Identifier::id` for `BybitOrderBookL1` (`l1.rs` lines 31-35):
`Some(ExchangeSub::from((BybitChannel::ORDER_BOOK_L1, &self.data.s)).id())`. -/
def bybitOrderBookL1Id (book : BybitOrderBookL1) : Option String :=
  some (exchangeSubId bybitChannelOrderBookL1 book.data.s)

/-- The `MarketEvent` built by the
`From<(ExchangeId, InstrumentId, BybitOrderBookL1)>` impl (`l1.rs` lines
40-73).  `now` is the `Utc::now()` sample; `exchange_id` stands for
`Exchange::from(exchange_id)`. -/
def bybitMarketEvent {I : Type} (exchange_id : String) (instrument : I)
    (now : Int) (book : BybitOrderBookL1) : MarketEvent I OrderBookL1 :=
  { exchange_time := book.ts
    received_time := now
    exchange := exchange_id
    instrument := instrument
    kind :=
      { last_update_time := book.ts
        best_bid := Level.new
          ((book.data.b.head?.bind (fun l => parseF64 l.1)).getD (F64.finite 0))
          ((book.data.b.head?.bind (fun l => parseF64 l.2)).getD (F64.finite 0))
        best_ask := Level.new
          ((book.data.a.head?.bind (fun l => parseF64 l.1)).getD (F64.finite 0))
          ((book.data.a.head?.bind (fun l => parseF64 l.2)).getD (F64.finite 0)) } }

/-- The full `From` impl: `Self(vec![Ok(MarketEvent { .. })])`. -/
def bybitL1ToMarketIter {I : Type} (exchange_id : String) (instrument : I)
    (now : Int) (book : BybitOrderBookL1) : MarketIter I OrderBookL1 :=
  [Except.ok (bybitMarketEvent exchange_id instrument now book)]

/-- `book` with its bid level list replaced (all other fields kept). -/
def withBids (book : BybitOrderBookL1) (bs : List (String × String)) :
    BybitOrderBookL1 :=
  { book with data := { book.data with b := bs } }

/-- `book` with its ask level list replaced (all other fields kept). -/
def withAsks (book : BybitOrderBookL1) (as' : List (String × String)) :
    BybitOrderBookL1 :=
  { book with data := { book.data with a := as' } }

/-- The decoded message of the unit test in `l1.rs`. -/
def sampleBook : BybitOrderBookL1 :=
  { topic := "orderbook.1.BTCUSDT"
    ts := 1724458107654
    update_type := "delta"
    data :=
      { s := "BTCUSDT"
        b := [("64055.75", "0.503641")]
        a := [("64055.76", "0.123456")]
        u := 37965267
        seq := 38244420107 }
    cts := 1724458107650 }

/-- A structured JSON payload as handed to serde.  Numbers of this schema
are integers (timestamps and counters); prices arrive as strings. -/
inductive Json where
  | null : Json
  | bool : Bool → Json
  | num : Int → Json
  | str : String → Json
  | arr : List Json → Json
  | obj : List (String × Json) → Json
deriving Repr

/-- serde map access for a required struct field: absent fields are an error
naming the field, duplicate fields are an error, unknown fields elsewhere in
the object are ignored (serde's default for a derived struct). -/
def getField (fs : List (String × Json)) (name : String) :
    Except String Json :=
  match fs.filter (fun kv => kv.1 = name) with
  | [] => Except.error ("missing field " ++ name)
  | [kv] => Except.ok kv.2
  | _ => Except.error ("duplicate field " ++ name)

/-- serde deserialization of a `String` field. -/
def decodeString : Json → Except String String
  | Json.str s => Except.ok s
  | _ => Except.error "invalid type: expected a string"

/-- serde deserialization of a `u64` field: a non-negative integer below
`2 ^ 64`. -/
def decodeU64 : Json → Except String Nat
  | Json.num (Int.ofNat k) =>
      if k < 2 ^ 64 then Except.ok k
      else Except.error "invalid value: expected u64"
  | Json.num (Int.negSucc _) => Except.error "invalid value: expected u64"
  | _ => Except.error "invalid type: expected u64"

/-- `chrono::serde::ts_milliseconds`: an `i64` of epoch milliseconds, i.e.
an integer in `[-2 ^ 63, 2 ^ 63)` (`Int.negSucc k` is `-(k+1)`, in range iff
`k < 2 ^ 63`; chrono's further calendar-range restriction on representable
dates is not modelled, it affects only astronomically large magnitudes). -/
def decodeTsMillis : Json → Except String Int
  | Json.num (Int.ofNat k) =>
      if k < 2 ^ 63 then Except.ok (Int.ofNat k)
      else Except.error "invalid value: expected i64 milliseconds"
  | Json.num (Int.negSucc k) =>
      if k < 2 ^ 63 then Except.ok (Int.negSucc k)
      else Except.error "invalid value: expected i64 milliseconds"
  | _ => Except.error "invalid type: expected i64 milliseconds"

/-- serde deserialization of one `[String; 2]` level: exactly a two-element
array, both elements strings. -/
def decodeLevel : Json → Except String (String × String)
  | Json.arr [Json.str p, Json.str q] => Except.ok (p, q)
  | _ => Except.error "invalid level: expected an array of two strings"

/-- serde deserialization of the elements of a `Vec<[String; 2]>`. -/
def decodeLevels : List Json → Except String (List (String × String))
  | [] => Except.ok []
  | j :: js =>
      Except.bind (decodeLevel j) (fun l =>
        Except.bind (decodeLevels js) (fun ls =>
          Except.ok (l :: ls)))

/-- serde deserialization of a `Vec<[String; 2]>` field. -/
def decodeLevelArray : Json → Except String (List (String × String))
  | Json.arr js => decodeLevels js
  | _ => Except.error "invalid type: expected an array of levels"

/-- Derived `Deserialize` for `BybitOrderBookL1Data`. -/
def decodeBybitOrderBookL1Data (j : Json) :
    Except String BybitOrderBookL1Data :=
  match j with
  | Json.obj fs =>
      Except.bind (Except.bind (getField fs "s") decodeString) (fun s =>
        Except.bind (Except.bind (getField fs "b") decodeLevelArray) (fun b =>
          Except.bind (Except.bind (getField fs "a") decodeLevelArray) (fun a =>
            Except.bind (Except.bind (getField fs "u") decodeU64) (fun u =>
              Except.bind (Except.bind (getField fs "seq") decodeU64) (fun sq =>
                Except.ok { s := s, b := b, a := a, u := u, seq := sq })))))
  | _ => Except.error "invalid type: expected an object"

/-- Derived `Deserialize` for `BybitOrderBookL1` (field `type` is renamed to
`update_type` by the serde attribute). -/
def decodeBybitOrderBookL1 (j : Json) : Except String BybitOrderBookL1 :=
  match j with
  | Json.obj fs =>
      Except.bind (Except.bind (getField fs "topic") decodeString) (fun t =>
        Except.bind (Except.bind (getField fs "ts") decodeTsMillis) (fun ts =>
          Except.bind (Except.bind (getField fs "type") decodeString) (fun ty =>
            Except.bind (Except.bind (getField fs "data")
                decodeBybitOrderBookL1Data) (fun d =>
              Except.bind (Except.bind (getField fs "cts") decodeU64)
                (fun cts =>
                  Except.ok { topic := t, ts := ts, update_type := ty,
                              data := d, cts := cts })))))
  | _ => Except.error "invalid type: expected an object"

/-- Modelled from the spec: re-encoding of one level per the §6 input schema
(`[string, string]`); the structs in `l1.rs` derive only `Deserialize`, so
the encoding direction is taken from the spec. -/
def encodeLevel (l : String × String) : Json :=
  Json.arr [Json.str l.1, Json.str l.2]

/-- Modelled from the spec: re-encoding of the nested `data` object per the
§6 input schema. -/
def encodeDataFields (d : BybitOrderBookL1Data) : List (String × Json) :=
  [("s", Json.str d.s),
   ("b", Json.arr (d.b.map encodeLevel)),
   ("a", Json.arr (d.a.map encodeLevel)),
   ("u", Json.num d.u),
   ("seq", Json.num d.seq)]

/-- Modelled from the spec: re-encoding of the whole message per the §6
input schema. -/
def encodeFields (m : BybitOrderBookL1) : List (String × Json) :=
  [("topic", Json.str m.topic),
   ("ts", Json.num m.ts),
   ("type", Json.str m.update_type),
   ("data", Json.obj (encodeDataFields m.data)),
   ("cts", Json.num m.cts)]

/-- Modelled from the spec: re-encoding of the whole message as a JSON
object. -/
def encodeBybitOrderBookL1 (m : BybitOrderBookL1) : Json :=
  Json.obj (encodeFields m)

/-- Drop every occurrence of a field from an encoded object's field list. -/
def removeField (fs : List (String × Json)) (name : String) :
    List (String × Json) :=
  fs.filter (fun kv => kv.1 ≠ name)

/-- The re-encoding of a message with one field deleted from the nested
`data` object (all top-level fields kept). -/
def encodeFieldsDataRemoved (m : BybitOrderBookL1) (name : String) :
    List (String × Json) :=
  [("topic", Json.str m.topic),
   ("ts", Json.num m.ts),
   ("type", Json.str m.update_type),
   ("data", Json.obj (removeField (encodeDataFields m.data) name)),
   ("cts", Json.num m.cts)]

/-- A message whose level lists are the given ones and whose scalar fields
are small in-range constants. -/
def bookWithLevels (bs as' : List (String × String)) : BybitOrderBookL1 :=
  { topic := "orderbook.1.BTCUSDT"
    ts := 0
    update_type := "delta"
    data := { s := "BTCUSDT", b := bs, a := as', u := 0, seq := 0 }
    cts := 0 }

/-- A well-formed payload except that the raw JSON under `data.b` is the
given value. -/
def payloadWithRawBids (bJson : Json) : Json :=
  Json.obj
    [("topic", Json.str "orderbook.1.BTCUSDT"),
     ("ts", Json.num 0),
     ("type", Json.str "delta"),
     ("data", Json.obj
        [("s", Json.str "BTCUSDT"),
         ("b", bJson),
         ("a", Json.arr []),
         ("u", Json.num 0),
         ("seq", Json.num 0)]),
     ("cts", Json.num 0)]

/-- C1: converting any decoded `BybitOrderBookL1` (with any exchange and
instrument identifiers) yields a `MarketIter` that is exactly the
single-element sequence holding the mapped event tagged `Ok`; no input
produces an error outcome or another length. -/
theorem marketIter_is_singleton_ok {I : Type} (ex : String) (ins : I)
    (now : Int) (book : BybitOrderBookL1) :
    bybitL1ToMarketIter ex ins now book
      = [Except.ok (bybitMarketEvent ex ins now book)] ∧
    (bybitL1ToMarketIter ex ins now book).length = 1 :=
  ⟨rfl, rfl⟩

/-- C2: an empty bid (resp. ask) level list degrades the corresponding best
level to `{price: 0.0, amount: 0.0}`, and each best level depends only on its
own side's level list, so the opposite side is unaffected. -/
theorem empty_side_degrades_to_zero {I : Type} (ex : String) (ins : I)
    (now : Int) (book : BybitOrderBookL1) :
    (book.data.b = [] →
      (bybitMarketEvent ex ins now book).kind.best_bid
        = Level.new (F64.finite 0) (F64.finite 0)) ∧
    (book.data.a = [] →
      (bybitMarketEvent ex ins now book).kind.best_ask
        = Level.new (F64.finite 0) (F64.finite 0)) ∧
    (∀ bs, (bybitMarketEvent ex ins now (withBids book bs)).kind.best_ask
        = (bybitMarketEvent ex ins now book).kind.best_ask) ∧
    (∀ as', (bybitMarketEvent ex ins now (withAsks book as')).kind.best_bid
        = (bybitMarketEvent ex ins now book).kind.best_bid) := by
  refine ⟨fun h => ?_, fun h => ?_, fun bs => rfl, fun as' => rfl⟩ <;>
    simp [bybitMarketEvent, Level.new, h]

/-- Witness for C2 at a concrete message with both level lists empty. -/
theorem empty_side_degrades_to_zero_witness :
    (bybitMarketEvent "bybit_spot" "BTCUSDT" 0
        (withAsks (withBids sampleBook []) [])).kind.best_bid
      = Level.new (F64.finite 0) (F64.finite 0) ∧
    (bybitMarketEvent "bybit_spot" "BTCUSDT" 0
        (withAsks (withBids sampleBook []) [])).kind.best_ask
      = Level.new (F64.finite 0) (F64.finite 0) :=
  ⟨(empty_side_degrades_to_zero "bybit_spot" "BTCUSDT" 0
      (withAsks (withBids sampleBook []) [])).1 rfl,
   (empty_side_degrades_to_zero "bybit_spot" "BTCUSDT" 0
      (withAsks (withBids sampleBook []) [])).2.1 rfl⟩

/-- C3: when a first level exists, the mapped price is the numeric parse of
its first string and the mapped amount the numeric parse of its second
string, each falling back to `0.0` independently when its own parse fails. -/
theorem first_level_fields_parse_independently {I : Type} (ex : String)
    (ins : I) (now : Int) (book : BybitOrderBookL1) (p q : String)
    (rest : List (String × String)) :
    (book.data.b = (p, q) :: rest →
      (bybitMarketEvent ex ins now book).kind.best_bid
        = Level.new ((parseF64 p).getD (F64.finite 0))
            ((parseF64 q).getD (F64.finite 0))) ∧
    (book.data.a = (p, q) :: rest →
      (bybitMarketEvent ex ins now book).kind.best_ask
        = Level.new ((parseF64 p).getD (F64.finite 0))
            ((parseF64 q).getD (F64.finite 0))) := by
  constructor <;> intro h <;> simp [bybitMarketEvent, h]

/-- Witness for C3: a non-numeric price with a numeric amount — the price
alone degrades to `0.0`, the amount keeps its parsed value. -/
theorem first_level_fields_parse_independently_witness :
    (bybitMarketEvent "bybit_spot" "BTCUSDT" 0
        (withBids sampleBook [("notanumber", "0.503641")])).kind.best_bid
      = Level.new ((parseF64 "notanumber").getD (F64.finite 0))
          ((parseF64 "0.503641").getD (F64.finite 0)) ∧
    parseF64 "notanumber" = none :=
  ⟨(first_level_fields_parse_independently "bybit_spot" "BTCUSDT" 0
      (withBids sampleBook [("notanumber", "0.503641")]) "notanumber"
      "0.503641" []).1 rfl,
   rfl⟩

/-- C4: `id()` always returns `Some` of the channel's canonical name joined
to the symbol with `|`; for symbol `BTCUSDT` the key is
`orderbook.1|BTCUSDT`. -/
theorem id_is_channel_pipe_symbol (book : BybitOrderBookL1) :
    bybitOrderBookL1Id book
      = some (bybitChannelOrderBookL1 ++ "|" ++ book.data.s) ∧
    (book.data.s = "BTCUSDT" →
      bybitOrderBookL1Id book = some "orderbook.1|BTCUSDT") := by
  refine ⟨rfl, fun h => ?_⟩
  simp [bybitOrderBookL1Id, exchangeSubId, bybitChannelOrderBookL1, h]

/-- Witness for C4 at the unit test's decoded message. -/
theorem id_is_channel_pipe_symbol_witness :
    bybitOrderBookL1Id sampleBook = some "orderbook.1|BTCUSDT" :=
  (id_is_channel_pipe_symbol sampleBook).2 rfl

/-- C5: the routing key is deterministic in the symbol (equal symbols yield
equal keys) and injective in the symbol (equal keys force equal symbols, so
distinct symbols yield distinct keys). -/
theorem id_deterministic_and_injective (b1 b2 : BybitOrderBookL1) :
    (b1.data.s = b2.data.s → bybitOrderBookL1Id b1 = bybitOrderBookL1Id b2) ∧
    (bybitOrderBookL1Id b1 = bybitOrderBookL1Id b2 →
      b1.data.s = b2.data.s) := by
  constructor
  · intro h
    simp [bybitOrderBookL1Id, exchangeSubId, h]
  · intro h
    simp only [bybitOrderBookL1Id, exchangeSubId, Option.some.injEq] at h
    have hd := congrArg String.data h
    simp only [String.data_append] at hd
    exact String.ext (List.append_cancel_left hd)

/-- Witness for C5: two concrete messages with equal symbols get equal keys,
and the injectivity direction applied to that equality recovers symbol
equality. -/
theorem id_deterministic_and_injective_witness :
    bybitOrderBookL1Id sampleBook
      = bybitOrderBookL1Id (withBids sampleBook []) ∧
    sampleBook.data.s = (withBids sampleBook []).data.s :=
  have h := (id_deterministic_and_injective sampleBook (withBids sampleBook [])).1 rfl
  ⟨h, (id_deterministic_and_injective sampleBook (withBids sampleBook [])).2 h⟩

/-- C6: the event's `exchange_time` and the kind's `last_update_time` are
both the decoded `ts`, hence equal to each other. -/
theorem times_copied_verbatim {I : Type} (ex : String) (ins : I) (now : Int)
    (book : BybitOrderBookL1) :
    (bybitMarketEvent ex ins now book).exchange_time = book.ts ∧
    (bybitMarketEvent ex ins now book).kind.last_update_time = book.ts ∧
    (bybitMarketEvent ex ins now book).exchange_time
      = (bybitMarketEvent ex ins now book).kind.last_update_time :=
  ⟨rfl, rfl, rfl⟩

/-- C9: two decoded messages equal in every field except `data.u` and
`data.seq` map (with the same identifiers, at possibly different wall-clock
samples) to events identical in every field except possibly
`received_time`. -/
theorem counters_do_not_affect_event {I : Type} (ex : String) (ins : I)
    (now now' : Int) (m1 m2 : BybitOrderBookL1)
    (_htopic : m1.topic = m2.topic) (hts : m1.ts = m2.ts)
    (_htype : m1.update_type = m2.update_type) (_hcts : m1.cts = m2.cts)
    (_hs : m1.data.s = m2.data.s) (hb : m1.data.b = m2.data.b)
    (ha : m1.data.a = m2.data.a) :
    (bybitMarketEvent ex ins now m1).exchange_time
      = (bybitMarketEvent ex ins now' m2).exchange_time ∧
    (bybitMarketEvent ex ins now m1).exchange
      = (bybitMarketEvent ex ins now' m2).exchange ∧
    (bybitMarketEvent ex ins now m1).instrument
      = (bybitMarketEvent ex ins now' m2).instrument ∧
    (bybitMarketEvent ex ins now m1).kind
      = (bybitMarketEvent ex ins now' m2).kind := by
  refine ⟨hts, rfl, rfl, ?_⟩
  simp [bybitMarketEvent, hts, hb, ha]

/-- Witness for C9: the sample message and a copy with different counters
yield the same event kind. -/
theorem counters_do_not_affect_event_witness :
    (bybitMarketEvent "bybit_spot" "BTCUSDT" 0 sampleBook).kind
      = (bybitMarketEvent "bybit_spot" "BTCUSDT" 1
          { sampleBook with
              data := { sampleBook.data with u := 0, seq := 0 } }).kind :=
  (counters_do_not_affect_event "bybit_spot" "BTCUSDT" 0 1 sampleBook
    { sampleBook with data := { sampleBook.data with u := 0, seq := 0 } }
    rfl rfl rfl rfl rfl rfl rfl).2.2.2

/-! Helper lemmas for the decoder proofs. -/

theorem exceptBind_ok {α β : Type} (a : α) (f : α → Except String β) :
    Except.bind (Except.ok a) f = f a := rfl

theorem exceptBind_eq_ok {α β : Type} {x : Except String α}
    {f : α → Except String β} {b : β} (h : Except.bind x f = Except.ok b) :
    ∃ a, x = Except.ok a ∧ f a = Except.ok b := by
  cases x with
  | error e => exact Except.noConfusion h
  | ok a => exact ⟨a, rfl, h⟩

theorem getField_ok_mem {fs : List (String × Json)} {name : String}
    {v : Json} (h : getField fs name = Except.ok v) :
    name ∈ fs.map Prod.fst := by
  unfold getField at h
  rcases hf : fs.filter (fun kv => kv.1 = name) with _ | ⟨kv, rest⟩
  · rw [hf] at h
    exact Except.noConfusion h
  · rcases rest with _ | ⟨kv2, rest2⟩
    · have hkv : kv ∈ fs.filter (fun kv => kv.1 = name) := by
        rw [hf]
        exact List.mem_singleton_self kv
      have hmem := (List.mem_filter.mp hkv).1
      have hname : kv.1 = name := of_decide_eq_true (List.mem_filter.mp hkv).2
      exact hname ▸ List.mem_map_of_mem Prod.fst hmem
    · rw [hf] at h
      exact Except.noConfusion h

theorem decodeU64_natCast (k : Nat) (hk : k < 2 ^ 64) :
    decodeU64 (Json.num (k : Int)) = Except.ok k := by
  show (if k < 2 ^ 64 then Except.ok k
      else Except.error "invalid value: expected u64") = Except.ok k
  rw [if_pos hk]

theorem decodeTsMillis_ok {n : Int} (h1 : -2 ^ 63 ≤ n) (h2 : n < 2 ^ 63) :
    decodeTsMillis (Json.num n) = Except.ok n := by
  cases n with
  | ofNat k =>
      show (if k < 2 ^ 63 then Except.ok (Int.ofNat k)
          else Except.error "invalid value: expected i64 milliseconds")
        = Except.ok (Int.ofNat k)
      have hk : ((k : Int)) < 2 ^ 63 := h2
      rw [if_pos (by omega : k < 2 ^ 63)]
  | negSucc k =>
      show (if k < 2 ^ 63 then Except.ok (Int.negSucc k)
          else Except.error "invalid value: expected i64 milliseconds")
        = Except.ok (Int.negSucc k)
      rw [Int.negSucc_eq] at h1
      rw [if_pos (by omega : k < 2 ^ 63)]

theorem decodeLevels_map_encodeLevel (ls : List (String × String)) :
    decodeLevels (ls.map encodeLevel) = Except.ok ls := by
  induction ls with
  | nil => rfl
  | cons l ls ih =>
      show Except.bind (decodeLevel (encodeLevel l)) (fun x =>
          Except.bind (decodeLevels (ls.map encodeLevel))
            (fun y => Except.ok (x :: y))) = Except.ok (l :: ls)
      rw [show decodeLevel (encodeLevel l) = Except.ok (l.1, l.2) from rfl]
      simp only [exceptBind_ok]
      rw [ih]
      rfl

theorem decodeData_encode (d : BybitOrderBookL1Data)
    (hu : d.u < 2 ^ 64) (hsq : d.seq < 2 ^ 64) :
    decodeBybitOrderBookL1Data (Json.obj (encodeDataFields d))
      = Except.ok d := by
  show Except.bind (decodeLevels (List.map encodeLevel d.b)) (fun b =>
      Except.bind (decodeLevels (List.map encodeLevel d.a)) (fun a =>
        Except.bind (decodeU64 (Json.num (d.u : Int))) (fun u =>
          Except.bind (decodeU64 (Json.num (d.seq : Int))) (fun sq =>
            Except.ok { s := d.s, b := b, a := a, u := u, seq := sq }))))
      = Except.ok d
  rw [decodeLevels_map_encodeLevel d.b]
  simp only [exceptBind_ok]
  rw [decodeLevels_map_encodeLevel d.a]
  simp only [exceptBind_ok]
  rw [decodeU64_natCast d.u hu]
  simp only [exceptBind_ok]
  rw [decodeU64_natCast d.seq hsq]
  simp only [exceptBind_ok]

theorem decode_encode_ok (m : BybitOrderBookL1)
    (hts1 : -2 ^ 63 ≤ m.ts) (hts2 : m.ts < 2 ^ 63)
    (hu : m.data.u < 2 ^ 64) (hsq : m.data.seq < 2 ^ 64)
    (hcts : m.cts < 2 ^ 64) :
    decodeBybitOrderBookL1 (encodeBybitOrderBookL1 m) = Except.ok m := by
  show Except.bind (decodeTsMillis (Json.num m.ts)) (fun ts =>
      Except.bind (decodeBybitOrderBookL1Data
          (Json.obj (encodeDataFields m.data))) (fun d =>
        Except.bind (decodeU64 (Json.num (m.cts : Int))) (fun cts =>
          Except.ok { topic := m.topic, ts := ts,
                      update_type := m.update_type, data := d, cts := cts })))
      = Except.ok m
  rw [decodeTsMillis_ok hts1 hts2]
  simp only [exceptBind_ok]
  rw [decodeData_encode m.data hu hsq]
  simp only [exceptBind_ok]
  rw [decodeU64_natCast m.cts hcts]
  simp only [exceptBind_ok]

theorem decodeLevel_ok_iff (j : Json) (p q : String) :
    decodeLevel j = Except.ok (p, q)
      ↔ j = Json.arr [Json.str p, Json.str q] := by
  constructor
  · intro h
    unfold decodeLevel at h
    split at h
    · simp only [Except.ok.injEq, Prod.mk.injEq] at h
      obtain ⟨rfl, rfl⟩ := h
      rfl
    · exact Except.noConfusion h
  · rintro rfl
    rfl

theorem decodeLevels_ok_iff (js : List Json) :
    (∃ ls, decodeLevels js = Except.ok ls)
      ↔ ∀ j ∈ js, ∃ p q, j = Json.arr [Json.str p, Json.str q] := by
  induction js with
  | nil => simp [decodeLevels]
  | cons j js ih =>
      constructor
      · rintro ⟨ls, h⟩
        have h0 : Except.bind (decodeLevel j) (fun l =>
            Except.bind (decodeLevels js)
              (fun y => Except.ok (l :: y))) = Except.ok ls := h
        obtain ⟨l, hl, h1⟩ := exceptBind_eq_ok h0
        obtain ⟨ls2, hls2, _⟩ := exceptBind_eq_ok h1
        intro x hx
        rcases List.mem_cons.mp hx with rfl | hx
        · exact ⟨l.1, l.2, (decodeLevel_ok_iff x l.1 l.2).mp hl⟩
        · exact (ih.mp ⟨ls2, hls2⟩) x hx
      · intro hall
        obtain ⟨p, q, hj⟩ := hall j (List.mem_cons_self j js)
        obtain ⟨ls2, hls2⟩ :=
          ih.mpr (fun x hx => hall x (List.mem_cons_of_mem j hx))
        refine ⟨(p, q) :: ls2, ?_⟩
        subst hj
        show Except.bind (decodeLevel (Json.arr [Json.str p, Json.str q]))
            (fun l => Except.bind (decodeLevels js)
              (fun y => Except.ok (l :: y)))
          = Except.ok ((p, q) :: ls2)
        rw [show decodeLevel (Json.arr [Json.str p, Json.str q])
            = Except.ok (p, q) from rfl]
        simp only [exceptBind_ok]
        rw [hls2]
        rfl

theorem decode_payloadWithRawBids (bJson : Json) :
    decodeBybitOrderBookL1 (payloadWithRawBids bJson)
      = Except.bind
          (Except.bind (decodeLevelArray bJson) (fun bl =>
            Except.ok { s := "BTCUSDT", b := bl, a := [], u := 0, seq := 0 :
              BybitOrderBookL1Data }))
          (fun d =>
            Except.ok { topic := "orderbook.1.BTCUSDT", ts := 0,
                        update_type := "delta", data := d, cts := 0 }) := rfl

theorem decode_ok_required_fields {fs : List (String × Json)}
    {m : BybitOrderBookL1}
    (h : decodeBybitOrderBookL1 (Json.obj fs) = Except.ok m) :
    ("topic" ∈ fs.map Prod.fst ∧ "ts" ∈ fs.map Prod.fst ∧
     "type" ∈ fs.map Prod.fst ∧ "data" ∈ fs.map Prod.fst ∧
     "cts" ∈ fs.map Prod.fst) ∧
    ∃ dfs, getField fs "data" = Except.ok (Json.obj dfs) ∧
      "s" ∈ dfs.map Prod.fst ∧ "b" ∈ dfs.map Prod.fst ∧
      "a" ∈ dfs.map Prod.fst ∧ "u" ∈ dfs.map Prod.fst ∧
      "seq" ∈ dfs.map Prod.fst := by
  have h0 : Except.bind (Except.bind (getField fs "topic") decodeString)
      (fun t =>
        Except.bind (Except.bind (getField fs "ts") decodeTsMillis)
          (fun ts =>
            Except.bind (Except.bind (getField fs "type") decodeString)
              (fun ty =>
                Except.bind (Except.bind (getField fs "data")
                    decodeBybitOrderBookL1Data) (fun d =>
                  Except.bind (Except.bind (getField fs "cts") decodeU64)
                    (fun cts =>
                      Except.ok { topic := t, ts := ts, update_type := ty,
                                  data := d, cts := cts })))))
      = Except.ok m := h
  obtain ⟨t, ht, h1⟩ := exceptBind_eq_ok h0
  obtain ⟨jt, hjt, _⟩ := exceptBind_eq_ok ht
  obtain ⟨ts, hts, h2⟩ := exceptBind_eq_ok h1
  obtain ⟨jts, hjts, _⟩ := exceptBind_eq_ok hts
  obtain ⟨ty, hty, h3⟩ := exceptBind_eq_ok h2
  obtain ⟨jty, hjty, _⟩ := exceptBind_eq_ok hty
  obtain ⟨d, hd, h4⟩ := exceptBind_eq_ok h3
  obtain ⟨jd, hjd, hdec⟩ := exceptBind_eq_ok hd
  obtain ⟨c, hc, _⟩ := exceptBind_eq_ok h4
  obtain ⟨jc, hjc, _⟩ := exceptBind_eq_ok hc
  refine ⟨⟨getField_ok_mem hjt, getField_ok_mem hjts, getField_ok_mem hjty,
    getField_ok_mem hjd, getField_ok_mem hjc⟩, ?_⟩
  cases jd with
  | obj dfs =>
      have h0d : Except.bind (Except.bind (getField dfs "s") decodeString)
          (fun s =>
            Except.bind (Except.bind (getField dfs "b") decodeLevelArray)
              (fun b =>
                Except.bind (Except.bind (getField dfs "a") decodeLevelArray)
                  (fun a =>
                    Except.bind (Except.bind (getField dfs "u") decodeU64)
                      (fun u =>
                        Except.bind (Except.bind (getField dfs "seq")
                            decodeU64) (fun sq =>
                          Except.ok { s := s, b := b, a := a, u := u,
                                      seq := sq })))))
          = Except.ok d := hdec
      obtain ⟨s, hs, hd1⟩ := exceptBind_eq_ok h0d
      obtain ⟨js, hjs, _⟩ := exceptBind_eq_ok hs
      obtain ⟨b, hb, hd2⟩ := exceptBind_eq_ok hd1
      obtain ⟨jb, hjb, _⟩ := exceptBind_eq_ok hb
      obtain ⟨a, ha, hd3⟩ := exceptBind_eq_ok hd2
      obtain ⟨ja, hja, _⟩ := exceptBind_eq_ok ha
      obtain ⟨u, hu, hd4⟩ := exceptBind_eq_ok hd3
      obtain ⟨ju, hju, _⟩ := exceptBind_eq_ok hu
      obtain ⟨sq, hsq, _⟩ := exceptBind_eq_ok hd4
      obtain ⟨jsq, hjsq, _⟩ := exceptBind_eq_ok hsq
      exact ⟨dfs, hjd, getField_ok_mem hjs, getField_ok_mem hjb,
        getField_ok_mem hja, getField_ok_mem hju, getField_ok_mem hjsq⟩
  | null => exact Except.noConfusion hdec
  | bool v => exact Except.noConfusion hdec
  | num n => exact Except.noConfusion hdec
  | str sv => exact Except.noConfusion hdec
  | arr js => exact Except.noConfusion hdec

/-- C7: a decode succeeds only when every required field — the five
top-level fields and the five fields of the nested `data` object — is
present; removing any one required field from a well-formed payload fails
with a decode error naming that field; and the level arrays are accepted at
every length, with no upper bound causing failure. -/
theorem decode_requires_fields_accepts_any_length :
    (∀ (fs : List (String × Json)) (m : BybitOrderBookL1),
      decodeBybitOrderBookL1 (Json.obj fs) = Except.ok m →
        ("topic" ∈ fs.map Prod.fst ∧ "ts" ∈ fs.map Prod.fst ∧
         "type" ∈ fs.map Prod.fst ∧ "data" ∈ fs.map Prod.fst ∧
         "cts" ∈ fs.map Prod.fst) ∧
        ∃ dfs, getField fs "data" = Except.ok (Json.obj dfs) ∧
          "s" ∈ dfs.map Prod.fst ∧ "b" ∈ dfs.map Prod.fst ∧
          "a" ∈ dfs.map Prod.fst ∧ "u" ∈ dfs.map Prod.fst ∧
          "seq" ∈ dfs.map Prod.fst) ∧
    (∀ (m : BybitOrderBookL1) (name : String),
      -2 ^ 63 ≤ m.ts → m.ts < 2 ^ 63 → m.data.u < 2 ^ 64 →
      m.data.seq < 2 ^ 64 →
      name ∈ ["topic", "ts", "type", "data", "cts"] →
      decodeBybitOrderBookL1 (Json.obj (removeField (encodeFields m) name))
        = Except.error ("missing field " ++ name)) ∧
    (∀ (m : BybitOrderBookL1) (name : String),
      -2 ^ 63 ≤ m.ts → m.ts < 2 ^ 63 → m.data.u < 2 ^ 64 →
      m.data.seq < 2 ^ 64 →
      name ∈ ["s", "b", "a", "u", "seq"] →
      decodeBybitOrderBookL1 (Json.obj (encodeFieldsDataRemoved m name))
        = Except.error ("missing field " ++ name)) ∧
    (∀ (bs as' : List (String × String)),
      decodeBybitOrderBookL1 (encodeBybitOrderBookL1 (bookWithLevels bs as'))
        = Except.ok (bookWithLevels bs as')) := by
  refine ⟨fun fs m h => decode_ok_required_fields h, ?_, ?_, ?_⟩
  · intro m name hts1 hts2 hu hsq hname
    fin_cases hname
    · rfl
    · rfl
    · show Except.bind (decodeTsMillis (Json.num m.ts))
          (fun ts => Except.error ("missing field " ++ "type"))
        = Except.error ("missing field " ++ "type")
      rw [decodeTsMillis_ok hts1 hts2]
      rfl
    · show Except.bind (decodeTsMillis (Json.num m.ts))
          (fun ts => Except.error ("missing field " ++ "data"))
        = Except.error ("missing field " ++ "data")
      rw [decodeTsMillis_ok hts1 hts2]
      rfl
    · show Except.bind (decodeTsMillis (Json.num m.ts)) (fun ts =>
          Except.bind (decodeBybitOrderBookL1Data
              (Json.obj (encodeDataFields m.data)))
            (fun d => Except.error ("missing field " ++ "cts")))
        = Except.error ("missing field " ++ "cts")
      rw [decodeTsMillis_ok hts1 hts2]
      simp only [exceptBind_ok]
      rw [decodeData_encode m.data hu hsq]
      rfl
  · intro m name hts1 hts2 hu hsq hname
    fin_cases hname
    · show Except.bind (decodeTsMillis (Json.num m.ts))
          (fun ts => Except.error ("missing field " ++ "s"))
        = Except.error ("missing field " ++ "s")
      rw [decodeTsMillis_ok hts1 hts2]
      rfl
    · show Except.bind (decodeTsMillis (Json.num m.ts))
          (fun ts => Except.error ("missing field " ++ "b"))
        = Except.error ("missing field " ++ "b")
      rw [decodeTsMillis_ok hts1 hts2]
      rfl
    · show Except.bind (decodeTsMillis (Json.num m.ts)) (fun ts =>
          Except.bind
            (Except.bind (decodeLevels (List.map encodeLevel m.data.b))
              (fun bl => Except.error ("missing field " ++ "a")))
            (fun d =>
              Except.bind (decodeU64 (Json.num (m.cts : Int)))
                (fun cts =>
                  Except.ok { topic := m.topic, ts := ts,
                              update_type := m.update_type, data := d,
                              cts := cts : BybitOrderBookL1 })))
        = Except.error ("missing field " ++ "a")
      rw [decodeTsMillis_ok hts1 hts2]
      simp only [exceptBind_ok]
      rw [decodeLevels_map_encodeLevel m.data.b]
      simp only [exceptBind_ok]
      rfl
    · show Except.bind (decodeTsMillis (Json.num m.ts)) (fun ts =>
          Except.bind
            (Except.bind (decodeLevels (List.map encodeLevel m.data.b))
              (fun bl =>
                Except.bind (decodeLevels (List.map encodeLevel m.data.a))
                  (fun al => Except.error ("missing field " ++ "u"))))
            (fun d =>
              Except.bind (decodeU64 (Json.num (m.cts : Int)))
                (fun cts =>
                  Except.ok { topic := m.topic, ts := ts,
                              update_type := m.update_type, data := d,
                              cts := cts : BybitOrderBookL1 })))
        = Except.error ("missing field " ++ "u")
      rw [decodeTsMillis_ok hts1 hts2]
      simp only [exceptBind_ok]
      rw [decodeLevels_map_encodeLevel m.data.b]
      simp only [exceptBind_ok]
      rw [decodeLevels_map_encodeLevel m.data.a]
      simp only [exceptBind_ok]
      rfl
    · show Except.bind (decodeTsMillis (Json.num m.ts)) (fun ts =>
          Except.bind
            (Except.bind (decodeLevels (List.map encodeLevel m.data.b))
              (fun bl =>
                Except.bind (decodeLevels (List.map encodeLevel m.data.a))
                  (fun al =>
                    Except.bind (decodeU64 (Json.num (m.data.u : Int)))
                      (fun u => Except.error ("missing field " ++ "seq")))))
            (fun d =>
              Except.bind (decodeU64 (Json.num (m.cts : Int)))
                (fun cts =>
                  Except.ok { topic := m.topic, ts := ts,
                              update_type := m.update_type, data := d,
                              cts := cts : BybitOrderBookL1 })))
        = Except.error ("missing field " ++ "seq")
      rw [decodeTsMillis_ok hts1 hts2]
      simp only [exceptBind_ok]
      rw [decodeLevels_map_encodeLevel m.data.b]
      simp only [exceptBind_ok]
      rw [decodeLevels_map_encodeLevel m.data.a]
      simp only [exceptBind_ok]
      rw [decodeU64_natCast m.data.u hu]
      simp only [exceptBind_ok]
      rfl
  · intro bs as'
    exact decode_encode_ok (bookWithLevels bs as')
      (by norm_num : -2 ^ 63 ≤ (0 : Int)) (by norm_num : (0 : Int) < 2 ^ 63)
      (by norm_num : (0 : Nat) < 2 ^ 64) (by norm_num : (0 : Nat) < 2 ^ 64)
      (by norm_num : (0 : Nat) < 2 ^ 64)

/-- Witness for C7: the unit test's message has all required fields (top
level and inside `data`) after encoding; deleting `topic` yields the error
naming `topic`; deleting `u` inside `data` yields the error naming `u`; a
payload with a one-element bid list and an empty ask list decodes. -/
theorem decode_requires_fields_accepts_any_length_witness :
    (("topic" ∈ (encodeFields sampleBook).map Prod.fst ∧
      "ts" ∈ (encodeFields sampleBook).map Prod.fst ∧
      "type" ∈ (encodeFields sampleBook).map Prod.fst ∧
      "data" ∈ (encodeFields sampleBook).map Prod.fst ∧
      "cts" ∈ (encodeFields sampleBook).map Prod.fst) ∧
     ∃ dfs, getField (encodeFields sampleBook) "data"
          = Except.ok (Json.obj dfs) ∧
        "s" ∈ dfs.map Prod.fst ∧ "b" ∈ dfs.map Prod.fst ∧
        "a" ∈ dfs.map Prod.fst ∧ "u" ∈ dfs.map Prod.fst ∧
        "seq" ∈ dfs.map Prod.fst) ∧
    decodeBybitOrderBookL1
        (Json.obj (removeField (encodeFields sampleBook) "topic"))
      = Except.error ("missing field " ++ "topic") ∧
    decodeBybitOrderBookL1
        (Json.obj (encodeFieldsDataRemoved sampleBook "u"))
      = Except.error ("missing field " ++ "u") ∧
    decodeBybitOrderBookL1 (encodeBybitOrderBookL1
        (bookWithLevels [("64055.75", "0.503641")] []))
      = Except.ok (bookWithLevels [("64055.75", "0.503641")] []) :=
  ⟨decode_requires_fields_accepts_any_length.1 (encodeFields sampleBook)
      sampleBook
      (decode_encode_ok sampleBook (by norm_num [sampleBook])
        (by norm_num [sampleBook]) (by norm_num [sampleBook])
        (by norm_num [sampleBook]) (by norm_num [sampleBook])),
   decode_requires_fields_accepts_any_length.2.1 sampleBook "topic"
      (by norm_num [sampleBook]) (by norm_num [sampleBook])
      (by norm_num [sampleBook]) (by norm_num [sampleBook]) (by simp),
   decode_requires_fields_accepts_any_length.2.2.1 sampleBook "u"
      (by norm_num [sampleBook]) (by norm_num [sampleBook])
      (by norm_num [sampleBook]) (by norm_num [sampleBook]) (by simp),
   decode_requires_fields_accepts_any_length.2.2.2
      [("64055.75", "0.503641")] []⟩

/-- C8: decoding the re-encoding of any decoded message reproduces every
field value exactly (the decode-then-encode round trip is lossless for all
declared fields, for every message whose numeric fields are in their wire
ranges). -/
theorem decode_reencode_lossless (m : BybitOrderBookL1)
    (hts1 : -2 ^ 63 ≤ m.ts) (hts2 : m.ts < 2 ^ 63)
    (hu : m.data.u < 2 ^ 64) (hsq : m.data.seq < 2 ^ 64)
    (hcts : m.cts < 2 ^ 64) :
    decodeBybitOrderBookL1 (encodeBybitOrderBookL1 m) = Except.ok m :=
  decode_encode_ok m hts1 hts2 hu hsq hcts

/-- Witness for C8 at the unit test's decoded message. -/
theorem decode_reencode_lossless_witness :
    (-2 ^ 63 ≤ sampleBook.ts ∧ sampleBook.ts < 2 ^ 63 ∧
     sampleBook.data.u < 2 ^ 64 ∧ sampleBook.data.seq < 2 ^ 64 ∧
     sampleBook.cts < 2 ^ 64) ∧
    decodeBybitOrderBookL1 (encodeBybitOrderBookL1 sampleBook)
      = Except.ok sampleBook :=
  ⟨⟨by norm_num [sampleBook], by norm_num [sampleBook],
    by norm_num [sampleBook], by norm_num [sampleBook],
    by norm_num [sampleBook]⟩,
   decode_reencode_lossless sampleBook (by norm_num [sampleBook])
     (by norm_num [sampleBook]) (by norm_num [sampleBook])
     (by norm_num [sampleBook]) (by norm_num [sampleBook])⟩

/-- C10: a level decodes successfully exactly when it is a two-element array
of strings; a level list decodes exactly when every entry has that shape;
and a payload whose bid array contains a malformed level is rejected as a
decode failure of the whole message. -/
theorem level_shape_strict :
    (∀ (j : Json) (p q : String),
      decodeLevel j = Except.ok (p, q)
        ↔ j = Json.arr [Json.str p, Json.str q]) ∧
    (∀ js : List Json,
      (∃ ls, decodeLevels js = Except.ok ls)
        ↔ ∀ j ∈ js, ∃ p q, j = Json.arr [Json.str p, Json.str q]) ∧
    (∀ bJson : Json, (∀ ls, decodeLevelArray bJson ≠ Except.ok ls) →
      ∀ m, decodeBybitOrderBookL1 (payloadWithRawBids bJson)
        ≠ Except.ok m) := by
  refine ⟨decodeLevel_ok_iff, decodeLevels_ok_iff, ?_⟩
  intro b hb m hok
  rw [decode_payloadWithRawBids] at hok
  cases hcase : decodeLevelArray b with
  | error e =>
      rw [hcase] at hok
      exact Except.noConfusion hok
  | ok ls => exact hb ls hcase

/-- Witness for C10: a payload whose bid array holds a one-element level is
rejected whole. -/
theorem level_shape_strict_witness :
    ¬ ∃ m, decodeBybitOrderBookL1
        (payloadWithRawBids (Json.arr [Json.arr [Json.str "64055.75"]]))
      = Except.ok m :=
  fun hex =>
    level_shape_strict.2.2 (Json.arr [Json.arr [Json.str "64055.75"]])
      (fun _ hls => Except.noConfusion hls) hex.choose hex.choose_spec

end BarterBybitL1
